import Mathlib

/-!
# gpencil/asr: the Whisper client

A shallow embedding of `config.go`, `errors.go` and `whisper.go`.

Go strings are embedded as `String`, Go `int` and `time.Duration` as `Int`,
`float64` as the exact value it denotes (`Float64` below).  Functions of the Go
standard library that are pure (`fmt.Sprintf`, `strings.TrimSpace`,
`filepath.Base`, `time.Duration.String`, ...) are embedded by what their
documentation says; the operating system (file system, child process, clock)
is a parameter, `Sys`.  Writes to standard output are not part of the model.
-/

namespace Asr

set_option maxRecDepth 8192

/-! ## float64 -/

/-- A `float64`: NaN, an infinity, or the finite number `(-1)^neg * mant * 2^exp`
(both zeros are `finite _ 0 _`). -/
inductive Float64 where
  | nan
  | inf (neg : Bool)
  | finite (neg : Bool) (mant : Nat) (exp : Int)
  deriving DecidableEq

namespace Float64

/-- The zero value of a Go `float64` variable. -/
def zero : Float64 := .finite false 0 0

/-- Go's `f > 0`. -/
def gtZero : Float64 → Bool
  | .nan => false
  | .inf neg => !neg
  | .finite neg m _ => !neg && decide (0 < m)

/-- Go's `f == 0`. -/
def isZero : Float64 → Bool
  | .finite _ m _ => decide (m = 0)
  | _ => false

/-- The signed mantissa of a finite value after scaling by `2^(exp - k)`, for `k ≤ exp`. -/
def scaled (neg : Bool) (m : Nat) (e k : Int) : Int :=
  (if neg then -1 else 1) * ((m : Int) * 2 ^ (e - k).toNat)

/-- Go's `a <= b` on `float64`: false as soon as one side is NaN. -/
def le : Float64 → Float64 → Bool
  | .nan, _ => false
  | _, .nan => false
  | .inf true, _ => true
  | _, .inf false => true
  | .inf false, _ => false
  | _, .inf true => false
  | .finite n₁ m₁ e₁, .finite n₂ m₂ e₂ =>
    decide (scaled n₁ m₁ e₁ (min e₁ e₂) ≤ scaled n₂ m₂ e₂ (min e₁ e₂))

end Float64

/-! ## fmt.Sprintf -/

/-- `fmt.Sprintf("%d", i)`. -/
def Sprintf_d (i : Int) : String :=
  if i < 0 then "-" ++ Nat.repr i.natAbs else Nat.repr i.toNat

/-- The quotient `num / den` rounded to the nearest integer, ties to even. -/
def roundHalfEven (num den : Nat) : Nat :=
  let q := num / den
  let r := num % den
  if 2 * r < den then q
  else if den < 2 * r then q + 1
  else if q % 2 = 0 then q else q + 1

/-- The number of hundredths in `m * 2^e`, correctly rounded. -/
def hundredths (m : Nat) (e : Int) : Nat :=
  if 0 ≤ e then m * 100 * 2 ^ e.toNat else roundHalfEven (m * 100) (2 ^ (-e).toNat)

/-- Two decimal digits of `n % 100`. -/
def twoDigits (n : Nat) : String :=
  ⟨[Nat.digitChar (n % 100 / 10), Nat.digitChar (n % 10)]⟩

/-- `fmt.Sprintf("%.2f", f)`. -/
def Sprintf_2f : Float64 → String
  | .nan => "NaN"
  | .inf false => "+Inf"
  | .inf true => "-Inf"
  | .finite neg m e =>
    (if neg then "-" else "") ++ Nat.repr (hundredths m e / 100) ++ "." ++
      twoDigits (hundredths m e)

/-! ## time.Duration -/

/-- `time.Duration`: a number of nanoseconds. -/
abbrev Duration := Int

def Nanosecond : Duration := 1
def Microsecond : Duration := 1000 * Nanosecond
def Millisecond : Duration := 1000 * Microsecond
def Second : Duration := 1000 * Millisecond
def Minute : Duration := 60 * Second

/-- `fmtFrac` of package `time`: the fraction of `v / 10^prec` written in front of
`buf` without trailing zeros (and without the point when the fraction is 0),
together with `v / 10^prec`.  `buf` is the part of the buffer already written. -/
def fmtFrac : Nat → Nat → Bool → List Char → List Char × Nat
  | 0, v, print, buf => (if print then '.' :: buf else buf, v)
  | prec + 1, v, print, buf =>
    let digit := v % 10
    let print := print || digit != 0
    fmtFrac prec (v / 10) print (if print then Nat.digitChar digit :: buf else buf)

/-- `fmtInt` of package `time`: `v` in decimal written in front of `buf`. -/
def fmtInt (buf : List Char) (v : Nat) : List Char :=
  if v = 0 then '0' :: buf else Nat.toDigits 10 v ++ buf

/-- `Duration.format`: the text written into the tail of the buffer. -/
def Duration.format (d : Duration) : List Char :=
  let u := d.natAbs
  let neg := decide (d < 0)
  let buf :=
    if u < Second.natAbs then
      if u = 0 then ['0', 's']
      else if u < Microsecond.natAbs then
        let (buf, u) := fmtFrac 0 u false ['n', 's']
        fmtInt buf u
      else if u < Millisecond.natAbs then
        let (buf, u) := fmtFrac 3 u false ['µ', 's']
        fmtInt buf u
      else
        let (buf, u) := fmtFrac 6 u false ['m', 's']
        fmtInt buf u
    else
      let (buf, u) := fmtFrac 9 u false ['s']
      let buf := fmtInt buf (u % 60)
      let u := u / 60
      if u > 0 then
        let buf := fmtInt ('m' :: buf) (u % 60)
        let u := u / 60
        if u > 0 then fmtInt ('h' :: buf) u else buf
      else buf
  if neg then '-' :: buf else buf

/-- `time.Duration.String`. -/
def Duration.String (d : Duration) : String := ⟨Duration.format d⟩

/-! ## config.go -/

/-- `WhisperModel` is a string type. -/
abbrev WhisperModel := String

def ModelTiny : WhisperModel := "tiny"
def ModelBase : WhisperModel := "base"
def ModelSmall : WhisperModel := "small"
def ModelMedium : WhisperModel := "medium"
def ModelLarge : WhisperModel := "large"

structure WhisperConfig where
  Model : WhisperModel
  Language : String
  OutputFormat : String
  Verbose : Bool
  Device : String
  Threads : Int
  Timeout : Duration
  BeamSize : Int
  BestOf : Int
  Temperature : Float64
  EnableVAD : Bool
  MaxSegmentLen : Int
  SplitOnSilence : Bool
  deriving DecidableEq

def DefaultConfig : WhisperConfig where
  Model := ModelMedium
  Language := "zh"
  OutputFormat := "txt"
  Verbose := false
  Device := "cpu"
  Threads := 0
  Timeout := 30 * Minute
  BeamSize := 5
  BestOf := 5
  Temperature := Float64.zero
  EnableVAD := true
  MaxSegmentLen := 300
  SplitOnSilence := true

/-- `FastConfig`. -/
def FastConfig : WhisperConfig :=
  { DefaultConfig with Model := ModelBase, BeamSize := 1, BestOf := 1, MaxSegmentLen := 180 }

/-- `AccurateConfig`. -/
def AccurateConfig : WhisperConfig :=
  { DefaultConfig with
    Model := ModelLarge, BeamSize := 10, BestOf := 10, MaxSegmentLen := 600,
    Timeout := 60 * Minute }

structure TextSegment where
  ID : Int
  Start : Float64
  End : Float64
  Text : String
  deriving DecidableEq

structure TranscriptionResult where
  Text : String
  Language : String
  Duration : Float64
  Segments : List TextSegment
  FilePath : String
  Model : WhisperModel
  deriving DecidableEq

/-! ## whisper.go: the argument builder -/

structure WhisperClient where
  config : WhisperConfig
  deriving DecidableEq

/-- `(*WhisperClient).buildWhisperArgs`: every `args = append(args, ...)` of the
source is one rebinding of `args`. -/
def WhisperClient.buildWhisperArgs (c : WhisperClient) (audioFilePath : String) :
    List String :=
  let args := [audioFilePath]
  let args := args ++ ["--model", c.config.Model]
  let args := if c.config.Language ≠ "" then args ++ ["--language", c.config.Language] else args
  let args := args ++ ["--output_format", c.config.OutputFormat]
  let args := if c.config.Device ≠ "" then args ++ ["--device", c.config.Device] else args
  let args := if c.config.Threads > 0 then
    args ++ ["--threads", Sprintf_d c.config.Threads] else args
  let args := if c.config.BeamSize > 0 then
    args ++ ["--beam_size", Sprintf_d c.config.BeamSize] else args
  let args := if c.config.BestOf > 0 then
    args ++ ["--best_of", Sprintf_d c.config.BestOf] else args
  let args := if c.config.Temperature.gtZero then
    args ++ ["--temperature", Sprintf_2f c.config.Temperature] else args
  let args := if c.config.Verbose then args ++ ["--verbose", "True"] else args
  args

/-! ## strings, path/filepath -/

/-- `unicode.IsSpace`. -/
def IsSpace (r : Char) : Bool :=
  let n := r.toNat
  (0x09 ≤ n && n ≤ 0x0d) || n = 0x20 || n = 0x85 || n = 0xa0 || n = 0x1680 ||
    (0x2000 ≤ n && n ≤ 0x200a) || n = 0x2028 || n = 0x2029 || n = 0x202f || n = 0x205f ||
    n = 0x3000

/-- `strings.TrimSpace`: the string without its leading and trailing white space. -/
def TrimSpace (s : String) : String :=
  ⟨(s.data.dropWhile IsSpace).rdropWhile IsSpace⟩

/-- `strings.TrimSuffix`. -/
def TrimSuffix (s suffix : String) : String :=
  if suffix.data.isSuffixOf s.data then ⟨s.data.take (s.data.length - suffix.data.length)⟩
  else s

/-- `os.IsPathSeparator` on Unix. -/
def IsPathSeparator (c : Char) : Bool := c = '/'

/-- The loop of `filepath.Ext`, from the last character backwards: `rev` is the part
of the path not yet visited, reversed, and `tail` the part already visited. -/
def extLoop : List Char → List Char → List Char
  | [], _ => []
  | c :: rev, tail =>
    if IsPathSeparator c then []
    else if c = '.' then c :: tail
    else extLoop rev (c :: tail)

/-- `filepath.Ext`: the suffix beginning at the final dot in the final element of
the path, empty if there is no dot. -/
def Ext (path : String) : String := ⟨extLoop path.data.reverse []⟩

/-- `filepath.Base` on Unix: the last element of the path, after removing trailing
separators; `.` for the empty path and `/` for a path of separators only. -/
def Base (path : String) : String :=
  if path = "" then "."
  else
    let path := path.data.rdropWhile IsPathSeparator
    let path := (path.reverse.takeWhile fun c => !IsPathSeparator c).reverse
    if path = [] then "/" else ⟨path⟩

/-! ## errors.go -/

/-- Go `error` values: the four error types of `errors.go`, the errors made by
`fmt.Errorf` around a wrapped error, and the errors of the operating system. -/
inductive Error where
  | ErrWhisperNotInstalled (Message : String)
  | ErrInvalidAudioFile (FilePath Reason : String)
  | ErrTranscriptionFailed (FilePath : String) (Err : Error)
  | ErrTimeout (Duration : String)
  | Errorf (format : String) (wrapped : Error) (args : List String)
  | system (message : String)
  deriving DecidableEq

/-! ## The operating system -/

/-- What `os.Stat` reports about a path: no error, an error for which
`os.IsNotExist` holds, or another error. -/
inductive StatResult where
  | ok
  | notExist
  | otherError
  deriving DecidableEq

/-- The value of `timeoutCtx.Err()`. -/
inductive CtxErr where
  | none
  | Canceled
  | DeadlineExceeded
  deriving DecidableEq

/-- One run of the child process as the program sees it: the error of `cmd.Run()`
(`none` when the child exited with status zero), the captured standard error, and
the value of `timeoutCtx.Err()` read after the run.  When the deadline elapses
before the child exits the child is killed: `err` is an error and `ctxErr` is
`DeadlineExceeded`. -/
structure RunOutcome where
  err : Option Error
  stderr : String
  ctxErr : CtxErr
  deriving DecidableEq

/-- The struct `json.Unmarshal` decodes a segment into. -/
structure JsonSegment where
  ID : Int
  Seek : Int
  Start : Float64
  End : Float64
  Text : String
  deriving DecidableEq

/-- The struct `jsonResult` of `parseResult`. -/
structure JsonResult where
  Text : String
  Language : String
  Duration : Float64
  Segments : List JsonSegment
  deriving DecidableEq

/-- The environment of the program, over the states `σ` of the machine and the
contexts `κ`: the calls into `os`, `os/exec`, `path/filepath` and `encoding/json`.
`readFile` is `none` when `os.ReadFile` returns an error, `unmarshal` is `none`
when `json.Unmarshal` returns an error. -/
structure Sys (σ κ : Type) where
  Background : κ
  Stat : σ → String → StatResult
  MkdirTemp : σ → Except Error String × σ
  Run : κ → Duration → List String → σ → RunOutcome × σ
  ReadFile : σ → String → Option String
  RemoveAll : String → σ → σ
  Join : String → String → String
  Unmarshal : String → Option JsonResult

/-- The effects of the program on the machine. -/
inductive Event where
  | MkdirTemp (result : Except Error String)
  | Spawn (args : List String)
  | RemoveAll (dir : String)

/-- The machine together with the effects performed so far, oldest first. -/
structure World (σ : Type) where
  state : σ
  trace : List Event

/-! ## whisper.go: transcription -/

/-- The artifact base name of `parseResult`. -/
def baseName (audioFilePath : String) : String :=
  TrimSuffix (Base audioFilePath) (Ext audioFilePath)

/-- The first step of `parseResult`: the fresh result, seeded from the text file. -/
def parseResultText {σ κ : Type} (sys : Sys σ κ) (audioFilePath outputDir : String) (st : σ) :
    TranscriptionResult :=
  let result : TranscriptionResult :=
    { Text := "", Language := "", Duration := Float64.zero, Segments := [], FilePath := "",
      Model := "" }
  let txtFile := sys.Join outputDir (baseName audioFilePath ++ ".txt")
  match sys.ReadFile st txtFile with
  | some data => { result with Text := data, FilePath := txtFile }
  | none => result

/-- The second step of `parseResult`: the JSON file, when it can be read and
decoded, overrides text, language and duration and appends its segments. -/
def parseResultJson {σ κ : Type} (sys : Sys σ κ) (audioFilePath outputDir : String) (st : σ)
    (result : TranscriptionResult) : TranscriptionResult :=
  let jsonFile := sys.Join outputDir (baseName audioFilePath ++ ".json")
  match sys.ReadFile st jsonFile with
  | some data =>
    match sys.Unmarshal data with
    | some jsonResult =>
      let result := { result with
        Text := jsonResult.Text, Language := jsonResult.Language,
        Duration := jsonResult.Duration }
      jsonResult.Segments.foldl
        (fun result seg => { result with
          Segments := result.Segments ++
            [{ ID := seg.ID, Start := seg.Start, End := seg.End, Text := TrimSpace seg.Text }] })
        result
    | none => result
  | none => result

/-- `(*WhisperClient).parseResult`. -/
def WhisperClient.parseResult {σ κ : Type} (_c : WhisperClient) (sys : Sys σ κ)
    (audioFilePath outputDir : String) (st : σ) : Except Error TranscriptionResult :=
  .ok (parseResultJson sys audioFilePath outputDir st
    (parseResultText sys audioFilePath outputDir st))

/-- `(*WhisperClient).TranscribeWithContext`.  The deferred `os.RemoveAll` runs on
every return after the temporary directory was made. -/
def WhisperClient.TranscribeWithContext {σ κ : Type} (c : WhisperClient) (sys : Sys σ κ)
    (ctx : κ) (audioFilePath : String) (w : World σ) :
    Except Error TranscriptionResult × World σ :=
  match sys.Stat w.state audioFilePath with
  | .notExist => (.error (.ErrInvalidAudioFile audioFilePath "文件不存在"), w)
  | _ =>
    let args := c.buildWhisperArgs audioFilePath
    match sys.MkdirTemp w.state with
    | (.error err, st) =>
      (.error (.Errorf "创建临时目录失败: %w" err []),
        { state := st, trace := w.trace ++ [.MkdirTemp (.error err)] })
    | (.ok outputDir, st) =>
      let w : World σ := { state := st, trace := w.trace ++ [.MkdirTemp (.ok outputDir)] }
      let args := args ++ ["--output_dir", outputDir]
      let (out, st) := sys.Run ctx c.config.Timeout args w.state
      let w : World σ := { state := st, trace := w.trace ++ [.Spawn args] }
      let ret : Except Error TranscriptionResult :=
        match out.err with
        | some err =>
          if out.ctxErr = .DeadlineExceeded then
            .error (.ErrTimeout (Duration.String c.config.Timeout))
          else
            .error (.ErrTranscriptionFailed audioFilePath
              (.Errorf "%w: %s" err [out.stderr]))
        | none =>
          match c.parseResult sys audioFilePath outputDir w.state with
          | .error err => .error err
          | .ok result => .ok { result with Model := c.config.Model }
      (ret, { state := sys.RemoveAll outputDir w.state, trace := w.trace ++ [.RemoveAll outputDir] })

/-- `(*WhisperClient).Transcribe`. -/
def WhisperClient.Transcribe {σ κ : Type} (c : WhisperClient) (sys : Sys σ κ)
    (audioFilePath : String) (w : World σ) : Except Error TranscriptionResult × World σ :=
  c.TranscribeWithContext sys sys.Background audioFilePath w

/-- The loop of `TranscribeBatch` over the files still to do, with the results so far. -/
def transcribeLoop {σ κ : Type} (c : WhisperClient) (sys : Sys σ κ) :
    List String → List TranscriptionResult → World σ →
      Except Error (List TranscriptionResult) × World σ
  | [], results, w => (.ok results, w)
  | file :: rest, results, w =>
    match c.Transcribe sys file w with
    | (.error _, w) => transcribeLoop c sys rest results w
    | (.ok result, w) => transcribeLoop c sys rest (results ++ [result]) w

/-- `(*WhisperClient).TranscribeBatch`. -/
def WhisperClient.TranscribeBatch {σ κ : Type} (c : WhisperClient) (sys : Sys σ κ)
    (audioFiles : List String) (w : World σ) :
    Except Error (List TranscriptionResult) × World σ :=
  transcribeLoop c sys audioFiles [] w

/-! ## The batch, call by call -/

/-- The outcomes of `Transcribe` on the files in turn, each call starting in the
world the previous call left, and the world after the last call. -/
def transcribeEach {σ κ : Type} (c : WhisperClient) (sys : Sys σ κ) :
    List String → World σ → List (Except Error TranscriptionResult) × World σ
  | [], w => ([], w)
  | file :: rest, w =>
    let (outcome, w) := c.Transcribe sys file w
    let (outcomes, w) := transcribeEach c sys rest w
    (outcome :: outcomes, w)

/-! ## The invariant of the data model -/

/-- The invariant of a segment sequence, on its (start, end) pairs: every start is
at most its end, and each start is at most the next one. -/
def timesOrdered : List (Float64 × Float64) → Bool
  | [] => true
  | [t] => t.1.le t.2
  | t :: u :: rest => t.1.le t.2 && t.1.le u.1 && timesOrdered (u :: rest)

/-- What it is for `segments` to be copied from the JSON artifact of the input in
the output directory, as far as the times go: if `<base>.json` is read and decoded,
`segments` has the (start, end) pairs of the decoded segments, unchanged and in
order, and so satisfies `timesOrdered` whenever they do; if no JSON document is
decoded, `segments` is empty. -/
def timesCopied {σ κ : Type} (sys : Sys σ κ) (audioFilePath outputDir : String) (st : σ)
    (segments : List TextSegment) : Prop :=
  (∀ data j,
      sys.ReadFile st (sys.Join outputDir (baseName audioFilePath ++ ".json")) = some data →
      sys.Unmarshal data = some j →
      (segments.map fun seg => (seg.Start, seg.End)) =
          (j.Segments.map fun seg => (seg.Start, seg.End)) ∧
        (timesOrdered (j.Segments.map fun seg => (seg.Start, seg.End)) = true →
          timesOrdered (segments.map fun seg => (seg.Start, seg.End)) = true)) ∧
    ((∀ data,
        sys.ReadFile st (sys.Join outputDir (baseName audioFilePath ++ ".json")) = some data →
        sys.Unmarshal data = none) →
      segments = [])

/-! ## A simulated machine -/

/-- A machine to run the program on: the state is the list of regular files (path
and content), every existing path can be read, a path below a regular file fails
`Stat` with an error that is not a not-exist error (`ENOTDIR`), the temporary
directory is always `/tmp/whisper_output_1`, and the child process ends with `out`,
having written `<base>.txt` into the output directory when it exits with status
zero. -/
def simSys (out : RunOutcome) (decode : String → Option JsonResult) :
    Sys (List (String × String)) Unit where
  Background := ()
  Stat st path :=
    if (st.lookup path).isSome then .ok
    else if st.any fun f => (f.1.data ++ ['/']).isPrefixOf path.data then .otherError
    else .notExist
  MkdirTemp st := (.ok "/tmp/whisper_output_1", st)
  Run _ _ args st :=
    (out,
      if out.err.isNone then
        (args.getLastD "" ++ "/" ++ baseName (args.headD "") ++ ".txt",
          "transcript of " ++ args.headD "") :: st
      else st)
  ReadFile st path := st.lookup path
  RemoveAll dir st := st.filter fun f => !(dir.data ++ ['/']).isPrefixOf f.1.data
  Join dir name := dir ++ "/" ++ name
  Unmarshal := decode

/-- The child process exits with status zero. -/
def exitZero : RunOutcome := { err := none, stderr := "", ctxErr := .none }

/-- A document whose single segment ends before it starts: start 5, end 1. -/
def docOne : String :=
  "\x7b\"text\":\" hi \",\"language\":\"en\",\"duration\":5,\"segments\":[\x7b\"id\":7,\"seek\":0,\"start\":5,\"end\":1,\"text\":\" hi \"\x7d]\x7d"

/-- The decoding of `docOne`. -/
def resultOne : JsonResult :=
  { Text := " hi ", Language := "en", Duration := .finite false 5 0,
    Segments := [{ ID := 7, Seek := 0, Start := .finite false 5 0,
                   End := .finite false 1 0, Text := " hi " }] }

/-- A document with two segments, from 0 to 2.5 and from 2.5 to 4. -/
def docTwo : String :=
  "\x7b\"text\":\"a b\",\"language\":\"en\",\"duration\":4,\"segments\":[\x7b\"id\":0,\"seek\":0,\"start\":0,\"end\":2.5,\"text\":\" a\"\x7d,\x7b\"id\":1,\"seek\":0,\"start\":2.5,\"end\":4,\"text\":\" b\"\x7d]\x7d"

/-- The decoding of `docTwo`. -/
def resultTwo : JsonResult :=
  { Text := "a b", Language := "en", Duration := .finite false 4 0,
    Segments := [{ ID := 0, Seek := 0, Start := .finite false 0 0,
                   End := .finite false 5 (-1), Text := " a" },
                 { ID := 1, Seek := 0, Start := .finite false 5 (-1),
                   End := .finite false 4 0, Text := " b" }] }

/-- A decoder that knows the two documents: `docOne`, whose single segment ends
before it starts (start 5, end 1), and `docTwo`. -/
def decodeSim (data : String) : Option JsonResult :=
  if data = docOne then some resultOne
  else if data = docTwo then some resultTwo
  else none

/-- An output directory holding the JSON document `docTwo` only. -/
def filesTwo : List (String × String) :=
  [("/out/a.json", docTwo)]

/-- An output directory holding a text file and the JSON document. -/
def filesBoth : List (String × String) :=
  [("/out/a.txt", "plain text"), ("/out/a.json", docOne)]

/-- An output directory holding a text file and a JSON file that does not decode. -/
def filesBadJson : List (String × String) :=
  [("/out/a.txt", "plain text"), ("/out/a.json", "not json")]

/-- An output directory holding the text file only. -/
def filesText : List (String × String) :=
  [("/out/a.txt", "plain text")]

/-- The child process exits with status one. -/
def exitOne : RunOutcome :=
  { err := some (.system "exit status 1"), stderr := "Not a directory", ctxErr := .none }

/-- The child process is killed at the deadline. -/
def killed : RunOutcome :=
  { err := some (.system "signal: killed"), stderr := "", ctxErr := .DeadlineExceeded }

/-- A client for the base model, English, text output and a timeout of 5 seconds. -/
def baseClient : WhisperClient :=
  { config := { DefaultConfig with Model := ModelBase, Language := "en", Timeout := 5 * Second } }

/-! ## Lemmas -/

/-- A conditional append is the append of a conditional list. -/
theorem ite_append_self {α : Type} (p : Prop) [Decidable p] (l x : List α) :
    (if p then l ++ x else l) = l ++ (if p then x else []) := by
  split_ifs <;> simp

/-- No decimal digit is a dash. -/
theorem digitChar_ne_dash (n : Nat) (h : n < 10) : Nat.digitChar n ≠ '-' := by
  interval_cases n <;> decide

theorem toDigitsCore_noDash (fuel : Nat) : ∀ (n : Nat) (acc : List Char), '-' ∉ acc →
    '-' ∉ Nat.toDigitsCore 10 fuel n acc := by
  induction fuel with
  | zero => intro n acc h; simpa [Nat.toDigitsCore] using h
  | succ k ih =>
    intro n acc h
    have hd : '-' ∉ Nat.digitChar (n % 10) :: acc := by
      simp only [List.mem_cons, not_or]
      exact ⟨(digitChar_ne_dash _ (Nat.mod_lt _ (by decide))).symm, h⟩
    simp only [Nat.toDigitsCore]
    split_ifs
    · exact hd
    · exact ih _ _ hd

/-- The decimal rendering of a natural number has no dash. -/
theorem repr_noDash (n : Nat) : '-' ∉ (Nat.repr n).data := by
  simp only [Nat.repr, Nat.toDigits, List.asString]
  exact toDigitsCore_noDash _ _ _ (by simp)

/-- The `%d` rendering of a positive integer has no dash. -/
theorem Sprintf_d_noDash (i : Int) (h : 0 < i) : '-' ∉ (Sprintf_d i).data := by
  have : ¬ i < 0 := by omega
  simp only [Sprintf_d, this, if_false]
  exact repr_noDash _

/-- The `%.2f` rendering of a positive float has no dash. -/
theorem Sprintf_2f_noDash (f : Float64) (h : f.gtZero = true) : '-' ∉ (Sprintf_2f f).data := by
  cases f with
  | nan => simp [Float64.gtZero] at h
  | inf neg =>
    cases neg
    · simp only [Sprintf_2f]; decide
    · simp [Float64.gtZero] at h
  | finite neg m e =>
    cases neg
    · simp only [Sprintf_2f, twoDigits, Bool.false_eq_true, if_false, String.data_append,
        List.mem_append, List.mem_cons, not_or]
      refine ⟨⟨⟨by decide, repr_noDash _⟩, by decide⟩, ?_, ?_, by simp⟩
      · exact (digitChar_ne_dash _ (by omega)).symm
      · exact (digitChar_ne_dash _ (Nat.mod_lt _ (by decide))).symm
    · simp [Float64.gtZero] at h

/-- A string with a dash differs from one without. -/
theorem ne_of_dash {s t : String} (hs : '-' ∈ s.data) (ht : '-' ∉ t.data) : s ≠ t := by
  intro h; subst h; exact ht hs

/-- Membership in an optional flag-value pair. -/
theorem mem_ite_pair {p : Prop} [Decidable p] (x a b : String) :
    x ∈ (if p then [a, b] else []) ↔ p ∧ (x = a ∨ x = b) := by
  split_ifs with h <;> simp [h]

/-- A float that is zero is not positive. -/
theorem gtZero_of_isZero (f : Float64) (h : f.isZero = true) : f.gtZero = false := by
  cases f with
  | nan => simp [Float64.isZero] at h
  | inf neg => simp [Float64.isZero] at h
  | finite neg m e =>
    simp only [Float64.isZero, decide_eq_true_eq] at h
    simp [Float64.gtZero, h]

/-- The segment loop of `parseResult` appends the imported segments in order and
touches no other field. -/
theorem foldl_segments (segs : List JsonSegment) (result : TranscriptionResult) :
    segs.foldl
        (fun (result : TranscriptionResult) (seg : JsonSegment) => { result with
          Segments := result.Segments ++
            [{ ID := seg.ID, Start := seg.Start, End := seg.End, Text := TrimSpace seg.Text }] })
        result =
      { result with
        Segments := result.Segments ++ segs.map fun seg =>
          { ID := seg.ID, Start := seg.Start, End := seg.End, Text := TrimSpace seg.Text } } := by
  induction segs generalizing result with
  | nil => simp
  | cons seg rest ih => simp [List.foldl_cons, ih, List.append_assoc]

/-- The fields of the result after the text step. -/
theorem parseResultText_eq {σ κ : Type} (sys : Sys σ κ) (audioFilePath outputDir : String)
    (st : σ) :
    parseResultText sys audioFilePath outputDir st =
      { Text := (sys.ReadFile st (sys.Join outputDir (baseName audioFilePath ++ ".txt"))).getD "",
        Language := "", Duration := Float64.zero, Segments := [],
        FilePath :=
          if (sys.ReadFile st (sys.Join outputDir (baseName audioFilePath ++ ".txt"))).isSome
          then sys.Join outputDir (baseName audioFilePath ++ ".txt") else "",
        Model := "" } := by
  simp only [parseResultText]
  generalize sys.ReadFile st (sys.Join outputDir (baseName audioFilePath ++ ".txt")) = o
  cases o <;> rfl

/-- The result when the JSON file is read and decoded. -/
theorem parseResult_of_json {σ κ : Type} (c : WhisperClient) (sys : Sys σ κ)
    (audioFilePath outputDir : String) (st : σ) (data : String) (j : JsonResult)
    (hread : sys.ReadFile st (sys.Join outputDir (baseName audioFilePath ++ ".json")) = some data)
    (hjson : sys.Unmarshal data = some j) :
    c.parseResult sys audioFilePath outputDir st =
      .ok { Text := j.Text, Language := j.Language, Duration := j.Duration,
            Segments := j.Segments.map fun seg =>
              { ID := seg.ID, Start := seg.Start, End := seg.End, Text := TrimSpace seg.Text },
            FilePath := (parseResultText sys audioFilePath outputDir st).FilePath,
            Model := "" } := by
  simp only [WhisperClient.parseResult, parseResultJson, hread, hjson, foldl_segments]
  simp [parseResultText_eq]

/-- The result when the JSON file cannot be read, or cannot be decoded. -/
theorem parseResult_of_no_json {σ κ : Type} (c : WhisperClient) (sys : Sys σ κ)
    (audioFilePath outputDir : String) (st : σ)
    (h : ∀ data, sys.ReadFile st (sys.Join outputDir (baseName audioFilePath ++ ".json"))
      = some data → sys.Unmarshal data = none) :
    c.parseResult sys audioFilePath outputDir st =
      .ok (parseResultText sys audioFilePath outputDir st) := by
  simp only [WhisperClient.parseResult, parseResultJson]
  cases hr : sys.ReadFile st (sys.Join outputDir (baseName audioFilePath ++ ".json")) with
  | none => rfl
  | some data => simp [h data hr]

/-- The loop of `TranscribeBatch` appends the successful outcomes, in order. -/
theorem transcribeLoop_eq {σ κ : Type} (c : WhisperClient) (sys : Sys σ κ)
    (files : List String) (results : List TranscriptionResult) (w : World σ) :
    transcribeLoop c sys files results w =
      (.ok (results ++ (transcribeEach c sys files w).1.filterMap Except.toOption),
        (transcribeEach c sys files w).2) := by
  induction files generalizing results w with
  | nil => simp [transcribeLoop, transcribeEach]
  | cons file rest ih =>
    simp only [transcribeLoop, transcribeEach]
    rcases h : c.Transcribe sys file w with ⟨outcome, w1⟩
    cases outcome with
    | error e => simp [ih, Except.toOption]
    | ok r => simp [ih, Except.toOption, List.append_assoc]

/-- A list is what `rdropWhile` keeps followed by what it drops. -/
theorem rdropWhile_append_rtakeWhile {α : Type} (p : α → Bool) (l : List α) :
    l.rdropWhile p ++ l.rtakeWhile p = l := by
  have h : (l.reverse.takeWhile p ++ l.reverse.dropWhile p).reverse = l.reverse.reverse :=
    congrArg List.reverse (List.takeWhile_append_dropWhile p l.reverse)
  rw [List.reverse_append, List.reverse_reverse] at h
  exact h

/-- `TrimSpace` removes a white-space beginning and a white-space end, and what is
left neither begins nor ends with white space. -/
theorem TrimSpace_spec (s : String) :
    ∃ pre suf, s.data = pre ++ (TrimSpace s).data ++ suf ∧
      (∀ c ∈ pre, IsSpace c = true) ∧ (∀ c ∈ suf, IsSpace c = true) ∧
      (∀ c, (TrimSpace s).data.head? = some c → IsSpace c = false) ∧
      (∀ c, (TrimSpace s).data.getLast? = some c → IsSpace c = false) := by
  refine ⟨s.data.takeWhile IsSpace, (s.data.dropWhile IsSpace).rtakeWhile IsSpace,
    ?_, ?_, ?_, ?_, ?_⟩
  · simp only [TrimSpace, List.append_assoc, rdropWhile_append_rtakeWhile,
      List.takeWhile_append_dropWhile]
  · intro c hc; exact List.mem_takeWhile_imp hc
  · intro c hc; exact List.mem_rtakeWhile_imp hc
  · intro c hc
    simp only [TrimSpace] at hc
    have hpre : (s.data.dropWhile IsSpace).rdropWhile IsSpace <+: s.data.dropWhile IsSpace :=
      List.rdropWhile_prefix _ _
    obtain ⟨t, ht⟩ := hpre
    have hh : (s.data.dropWhile IsSpace).head? = some c := by
      rw [← ht, List.head?_append, hc]; rfl
    have := List.head?_dropWhile_not IsSpace s.data
    rw [hh] at this
    simpa using this
  · intro c hc
    simp only [TrimSpace, List.rdropWhile, List.getLast?_reverse] at hc
    have := List.head?_dropWhile_not IsSpace (s.data.dropWhile IsSpace).reverse
    rw [hc] at this
    simpa using this

/-- The check of `TranscribeWithContext` stops the call only on a not-exist error:
on a path for which `Stat` fails with another error the call goes on to
`MkdirTemp`, and when the directory is made the process is spawned; the call never
returns `ErrInvalidAudioFile` there. -/
theorem Transcribe_stat_otherError {σ κ : Type} (c : WhisperClient) (sys : Sys σ κ) (ctx : κ)
    (audioFilePath : String) (w : World σ)
    (hstat : sys.Stat w.state audioFilePath = .otherError) :
    (∀ path reason, (c.TranscribeWithContext sys ctx audioFilePath w).1 ≠
        .error (.ErrInvalidAudioFile path reason)) ∧
      ((c.TranscribeWithContext sys ctx audioFilePath w).2.trace =
          w.trace ++ [.MkdirTemp (sys.MkdirTemp w.state).1] ∨
        ∃ outputDir, (sys.MkdirTemp w.state).1 = .ok outputDir ∧
          (c.TranscribeWithContext sys ctx audioFilePath w).2.trace =
            w.trace ++ [.MkdirTemp (.ok outputDir)] ++
              [.Spawn (c.buildWhisperArgs audioFilePath ++ ["--output_dir", outputDir])] ++
              [.RemoveAll outputDir]) := by
  unfold WhisperClient.TranscribeWithContext
  simp only [hstat]
  rcases hm : sys.MkdirTemp w.state with ⟨r, st₁⟩
  cases r with
  | error e => exact ⟨fun _ _ h => (by cases h), Or.inl rfl⟩
  | ok outputDir =>
    refine ⟨?_, Or.inr ⟨outputDir, rfl, rfl⟩⟩
    intro path reason
    simp only [WhisperClient.parseResult]
    cases (sys.Run ctx c.config.Timeout
        (c.buildWhisperArgs audioFilePath ++ ["--output_dir", outputDir]) st₁).1.err with
    | none => intro h; cases h
    | some e => split_ifs <;> (intro h; cases h)

/-- A successful call of `TranscribeWithContext` returns the result of `parseResult`
on the temporary directory and the state the child process left, with the model
replaced. -/
theorem Transcribe_ok_parseResult {σ κ : Type} (c : WhisperClient) (sys : Sys σ κ) (ctx : κ)
    (audioFilePath : String) (w : World σ) (r' : TranscriptionResult)
    (h : (c.TranscribeWithContext sys ctx audioFilePath w).1 = .ok r') :
    ∃ outputDir st₁ r, sys.MkdirTemp w.state = (.ok outputDir, st₁) ∧
      c.parseResult sys audioFilePath outputDir
        (sys.Run ctx c.config.Timeout
          (c.buildWhisperArgs audioFilePath ++ ["--output_dir", outputDir]) st₁).2 = .ok r ∧
      r' = { r with Model := c.config.Model } := by
  unfold WhisperClient.TranscribeWithContext at h
  rcases hm : sys.MkdirTemp w.state with ⟨m, st₁⟩
  cases hs : sys.Stat w.state audioFilePath with
  | notExist => rw [hs] at h; cases h
  | ok =>
    rw [hs, hm] at h
    cases m with
    | error e => cases h
    | ok outputDir =>
      refine ⟨outputDir, st₁, _, rfl, rfl, ?_⟩
      simp only [WhisperClient.parseResult] at h
      cases he : (sys.Run ctx c.config.Timeout
          (c.buildWhisperArgs audioFilePath ++ ["--output_dir", outputDir]) st₁).1.err with
      | none => rw [he] at h; simp only [Except.ok.injEq] at h; exact h.symm
      | some e => rw [he] at h; simp only at h; split_ifs at h
  | otherError =>
    rw [hs, hm] at h
    cases m with
    | error e => cases h
    | ok outputDir =>
      refine ⟨outputDir, st₁, _, rfl, rfl, ?_⟩
      simp only [WhisperClient.parseResult] at h
      cases he : (sys.Run ctx c.config.Timeout
          (c.buildWhisperArgs audioFilePath ++ ["--output_dir", outputDir]) st₁).1.err with
      | none => rw [he] at h; simp only [Except.ok.injEq] at h; exact h.symm
      | some e => rw [he] at h; simp only at h; split_ifs at h

/-- The segments of the result of `parseResult` are copied from the JSON artifact. -/
theorem parseResult_timesCopied {σ κ : Type} (sys : Sys σ κ)
    (audioFilePath outputDir : String) (st : σ) :
    timesCopied sys audioFilePath outputDir st
      (parseResultJson sys audioFilePath outputDir st
        (parseResultText sys audioFilePath outputDir st)).Segments := by
  refine ⟨?_, ?_⟩
  · intro data j hr hj
    have h := parseResult_of_json (WhisperClient.mk DefaultConfig) sys audioFilePath outputDir
      st data j hr hj
    simp only [WhisperClient.parseResult, Except.ok.injEq] at h
    have hm : (List.map (fun seg : TextSegment => (seg.Start, seg.End))
        (parseResultJson sys audioFilePath outputDir st
          (parseResultText sys audioFilePath outputDir st)).Segments) =
        List.map (fun seg : JsonSegment => (seg.Start, seg.End)) j.Segments := by
      rw [h]; simp [List.map_map, Function.comp_def]
    exact ⟨hm, fun ho => by rw [hm]; exact ho⟩
  · intro hno
    have h := parseResult_of_no_json (WhisperClient.mk DefaultConfig) sys audioFilePath
      outputDir st hno
    simp only [WhisperClient.parseResult, Except.ok.injEq] at h
    rw [h, parseResultText_eq]

/-- The argument list as one concatenation. -/
theorem buildWhisperArgs_closed (c : WhisperClient) (audioFilePath : String) :
    c.buildWhisperArgs audioFilePath =
        [audioFilePath] ++ ["--model", c.config.Model]
          ++ (if c.config.Language ≠ "" then ["--language", c.config.Language] else [])
          ++ ["--output_format", c.config.OutputFormat]
          ++ (if c.config.Device ≠ "" then ["--device", c.config.Device] else [])
          ++ (if 0 < c.config.Threads then ["--threads", Sprintf_d c.config.Threads] else [])
          ++ (if 0 < c.config.BeamSize then ["--beam_size", Sprintf_d c.config.BeamSize] else [])
          ++ (if 0 < c.config.BestOf then ["--best_of", Sprintf_d c.config.BestOf] else [])
          ++ (if c.config.Temperature.gtZero = true
                then ["--temperature", Sprintf_2f c.config.Temperature] else [])
          ++ (if c.config.Verbose = true then ["--verbose", "True"] else []) := by
  simp only [WhisperClient.buildWhisperArgs, ite_append_self, gt_iff_lt]

/-! ## Theorems -/

/-- C1: `buildWhisperArgs` returns exactly the input path, then `--model` and the
tier, then `--language` and the language iff it is non-empty, then
`--output_format` and the format, then `--device` and the device iff it is
non-empty, then `--threads`, `--beam_size`, `--best_of` with their decimal values
iff the value is positive, then `--temperature` with its `%.2f` rendering iff the
temperature is positive, then `--verbose True` iff verbose is set; in particular
the first element is the input path. -/
theorem buildWhisperArgs_eq (c : WhisperClient) (audioFilePath : String) :
    c.buildWhisperArgs audioFilePath =
        [audioFilePath] ++ ["--model", c.config.Model]
          ++ (if c.config.Language ≠ "" then ["--language", c.config.Language] else [])
          ++ ["--output_format", c.config.OutputFormat]
          ++ (if c.config.Device ≠ "" then ["--device", c.config.Device] else [])
          ++ (if 0 < c.config.Threads then ["--threads", Sprintf_d c.config.Threads] else [])
          ++ (if 0 < c.config.BeamSize then ["--beam_size", Sprintf_d c.config.BeamSize] else [])
          ++ (if 0 < c.config.BestOf then ["--best_of", Sprintf_d c.config.BestOf] else [])
          ++ (if c.config.Temperature.gtZero = true
                then ["--temperature", Sprintf_2f c.config.Temperature] else [])
          ++ (if c.config.Verbose = true then ["--verbose", "True"] else [])
      ∧ (c.buildWhisperArgs audioFilePath).head? = some audioFilePath := by
  refine ⟨buildWhisperArgs_closed c audioFilePath, ?_⟩
  rw [buildWhisperArgs_closed]
  simp only [List.append_assoc, List.singleton_append, List.cons_append, List.head?_cons]

/-- C9 (as stated): with temperature 0, the input path `--temperature` is an
element of the argument sequence. -/
theorem buildWhisperArgs_flag_present :
    (WhisperClient.mk DefaultConfig).config.Temperature.isZero = true ∧
      "--temperature" ∈ (WhisperClient.mk DefaultConfig).buildWhisperArgs "--temperature" := by
  decide

/-- C9 (amended): a flag whose option is switched off (`--temperature` at
temperature 0, `--beam_size`, `--best_of`, `--threads` at a value ≤ 0, `--device`,
`--language` at the empty string) is no element of the argument sequence, provided
it is none of the strings the caller passes through (input path, model, language,
output format, device). -/
theorem buildWhisperArgs_flag_absent (c : WhisperClient) (audioFilePath flag : String)
    (hfree : flag ∉ [audioFilePath, c.config.Model, c.config.Language, c.config.OutputFormat,
      c.config.Device])
    (hoff : (flag = "--temperature" ∧ c.config.Temperature.isZero = true) ∨
      (flag = "--beam_size" ∧ c.config.BeamSize ≤ 0) ∨
      (flag = "--best_of" ∧ c.config.BestOf ≤ 0) ∨
      (flag = "--threads" ∧ c.config.Threads ≤ 0) ∨
      (flag = "--device" ∧ c.config.Device = "") ∨
      (flag = "--language" ∧ c.config.Language = "")) :
    flag ∉ c.buildWhisperArgs audioFilePath := by
  have hdash : '-' ∈ flag.data := by
    rcases hoff with ⟨h, _⟩ | ⟨h, _⟩ | ⟨h, _⟩ | ⟨h, _⟩ | ⟨h, _⟩ | ⟨h, _⟩ <;> subst h <;> decide
  have hI : ∀ i : Int, 0 < i → flag ≠ Sprintf_d i := fun i hi =>
    ne_of_dash hdash (Sprintf_d_noDash i hi)
  have hF : c.config.Temperature.gtZero = true → flag ≠ Sprintf_2f c.config.Temperature :=
    fun h => ne_of_dash hdash (Sprintf_2f_noDash _ h)
  simp only [List.mem_cons, List.mem_singleton, List.not_mem_nil, or_false, not_or] at hfree
  obtain ⟨h1, h2, h3, h4, h5⟩ := hfree
  rw [buildWhisperArgs_closed]
  simp only [List.mem_append, List.mem_cons, List.mem_singleton, List.not_mem_nil, or_false,
    mem_ite_pair, not_or, not_and]
  rcases hoff with ⟨h, ht⟩ | ⟨h, ht⟩ | ⟨h, ht⟩ | ⟨h, ht⟩ | ⟨h, ht⟩ | ⟨h, ht⟩ <;> subst h
  all_goals
    refine ⟨⟨⟨⟨⟨⟨⟨⟨⟨h1, by decide, h2⟩, ?_⟩, by decide, h4⟩, ?_⟩, ?_⟩, ?_⟩, ?_⟩, ?_⟩, ?_⟩
  all_goals first
    | (intro _; exact ⟨by decide, by assumption⟩)
    | (intro hp; exact ⟨by decide, hI _ hp⟩)
    | (intro hp; exact ⟨by decide, hF hp⟩)
    | (intro _; exact ⟨by decide, by decide⟩)
    | (intro hp; exact absurd hp (by omega))
    | (intro hp; exact absurd ht hp)
    | (intro hp; rw [gtZero_of_isZero _ ht] at hp; exact absurd hp (by decide))

theorem buildWhisperArgs_flag_absent_witness :
    "--temperature" ∉ baseClient.buildWhisperArgs "sample.mp3" :=
  buildWhisperArgs_flag_absent baseClient "sample.mp3" "--temperature" (by decide)
    (Or.inl ⟨rfl, by decide⟩)

/-- C2: when `<base>.json` is read and decoded, `parseResult` returns a result whose
text, language and duration are the JSON's, whatever the text file holds, and whose
segments are the JSON's segments in order, with the same id, start and end and the
text trimmed of leading and trailing white space. -/
theorem parseResult_json_overrides {σ κ : Type} (c : WhisperClient) (sys : Sys σ κ)
    (audioFilePath outputDir : String) (st : σ) (data : String) (j : JsonResult)
    (hread : sys.ReadFile st (sys.Join outputDir (baseName audioFilePath ++ ".json")) = some data)
    (hjson : sys.Unmarshal data = some j) :
    ∃ r, c.parseResult sys audioFilePath outputDir st = .ok r ∧
      r.Text = j.Text ∧ r.Language = j.Language ∧ r.Duration = j.Duration ∧
      r.Segments.length = j.Segments.length ∧
      r.Segments = j.Segments.map fun seg =>
        { ID := seg.ID, Start := seg.Start, End := seg.End, Text := TrimSpace seg.Text } := by
  refine ⟨_, parseResult_of_json c sys audioFilePath outputDir st data j hread hjson, rfl, rfl,
    rfl, ?_, rfl⟩
  simp

theorem parseResult_json_overrides_witness :
    ∃ r, (WhisperClient.mk DefaultConfig).parseResult (simSys exitZero decodeSim) "a.mp3" "/out"
        filesBoth = .ok r ∧
      r.Text = resultOne.Text ∧ r.Language = resultOne.Language ∧
      r.Duration = resultOne.Duration ∧
      r.Segments.length = resultOne.Segments.length ∧
      r.Segments = resultOne.Segments.map fun seg =>
        { ID := seg.ID, Start := seg.Start, End := seg.End, Text := TrimSpace seg.Text } :=
  parseResult_json_overrides (WhisperClient.mk DefaultConfig) (simSys exitZero decodeSim) "a.mp3"
    "/out" filesBoth docOne resultOne (by decide) (by decide)

/-- C4: when `<base>.json` is read but does not decode, `parseResult` returns no
error and the result of the text step alone; it is the result returned in any
state with the same text file and no JSON file. -/
theorem parseResult_json_undecodable {σ κ : Type} (c : WhisperClient) (sys : Sys σ κ)
    (audioFilePath outputDir : String) (st st' : σ) (data : String)
    (hread : sys.ReadFile st (sys.Join outputDir (baseName audioFilePath ++ ".json")) = some data)
    (hjson : sys.Unmarshal data = none)
    (htxt : sys.ReadFile st' (sys.Join outputDir (baseName audioFilePath ++ ".txt")) =
      sys.ReadFile st (sys.Join outputDir (baseName audioFilePath ++ ".txt")))
    (hgone : sys.ReadFile st' (sys.Join outputDir (baseName audioFilePath ++ ".json")) = none) :
    c.parseResult sys audioFilePath outputDir st =
        .ok (parseResultText sys audioFilePath outputDir st) ∧
      c.parseResult sys audioFilePath outputDir st =
        c.parseResult sys audioFilePath outputDir st' := by
  have h1 := parseResult_of_no_json c sys audioFilePath outputDir st
    (fun d hd => by rw [hread] at hd; cases hd; exact hjson)
  have h2 := parseResult_of_no_json c sys audioFilePath outputDir st'
    (fun d hd => by rw [hgone] at hd; cases hd)
  refine ⟨h1, ?_⟩
  rw [h1, h2, parseResultText_eq, parseResultText_eq, htxt]

theorem parseResult_json_undecodable_witness :
    (WhisperClient.mk DefaultConfig).parseResult (simSys exitZero decodeSim) "a.mp3" "/out"
        filesBadJson =
        .ok (parseResultText (simSys exitZero decodeSim) "a.mp3" "/out" filesBadJson) ∧
      (WhisperClient.mk DefaultConfig).parseResult (simSys exitZero decodeSim) "a.mp3" "/out"
        filesBadJson =
        (WhisperClient.mk DefaultConfig).parseResult (simSys exitZero decodeSim) "a.mp3" "/out"
          filesText :=
  parseResult_json_undecodable (WhisperClient.mk DefaultConfig) (simSys exitZero decodeSim)
    "a.mp3" "/out" filesBadJson filesText "not json" (by decide) (by decide) (by decide)
    (by decide)

/-- C5: when `<base>.json` cannot be read, `parseResult` returns no error and a
result with empty language, zero duration and no segments; its text is the content
of `<base>.txt` and its file path the path of that file when the file is read, and
both are empty otherwise. -/
theorem parseResult_without_json {σ κ : Type} (c : WhisperClient) (sys : Sys σ κ)
    (audioFilePath outputDir : String) (st : σ)
    (hgone : sys.ReadFile st (sys.Join outputDir (baseName audioFilePath ++ ".json")) = none) :
    c.parseResult sys audioFilePath outputDir st =
      .ok { Text :=
              (sys.ReadFile st (sys.Join outputDir (baseName audioFilePath ++ ".txt"))).getD "",
            Language := "", Duration := Float64.zero, Segments := [],
            FilePath :=
              if (sys.ReadFile st
                  (sys.Join outputDir (baseName audioFilePath ++ ".txt"))).isSome
              then sys.Join outputDir (baseName audioFilePath ++ ".txt") else "",
            Model := "" } := by
  rw [parseResult_of_no_json c sys audioFilePath outputDir st
    (fun d hd => by rw [hgone] at hd; cases hd), parseResultText_eq]

theorem parseResult_without_json_witness :
    (WhisperClient.mk DefaultConfig).parseResult (simSys exitZero decodeSim) "dir/a.mp3" "/out"
        filesText =
      .ok { Text := "plain text", Language := "", Duration := Float64.zero, Segments := [],
            FilePath := "/out/a.txt", Model := "" } :=
  parseResult_without_json (WhisperClient.mk DefaultConfig) (simSys exitZero decodeSim)
    "dir/a.mp3" "/out" filesText (by decide)

/-- C10 (as stated): a JSON document whose single segment has start 5 and end 1 is
imported as it is; the result has a segment whose start is not at most its end. -/
theorem parseResult_segments_unordered :
    ∃ r, (WhisperClient.mk DefaultConfig).parseResult (simSys exitZero decodeSim) "a.mp3" "/out"
        filesBoth = .ok r ∧
      r.Segments ≠ [] ∧ ¬ ∀ seg ∈ r.Segments, seg.Start.le seg.End = true :=
  ⟨_, rfl, by decide, by decide⟩

/-- C10 (amended): `parseResult` validates no segment time, it copies them.  When
`<base>.json` is read and decoded, the result has the (start, end) pairs of the
decoded segments, unchanged and in order, so it has start at most end and
non-decreasing starts whenever the decoded segments have; when no JSON document is
decoded, the result has no segments.  The same holds of every result returned by
`TranscribeWithContext` and by `Transcribe`, for the temporary directory of the
call and the state the child process left. -/
theorem parseResult_segments_ordered {σ κ : Type} (c : WhisperClient) (sys : Sys σ κ)
    (audioFilePath outputDir : String) (st : σ) :
    (∃ r, c.parseResult sys audioFilePath outputDir st = .ok r ∧
      timesCopied sys audioFilePath outputDir st r.Segments) ∧
    (∀ (ctx : κ) (w : World σ) (r' : TranscriptionResult),
      (c.TranscribeWithContext sys ctx audioFilePath w).1 = .ok r' →
        ∃ dir st₁, sys.MkdirTemp w.state = (.ok dir, st₁) ∧
          timesCopied sys audioFilePath dir
            (sys.Run ctx c.config.Timeout
              (c.buildWhisperArgs audioFilePath ++ ["--output_dir", dir]) st₁).2
            r'.Segments) ∧
    (∀ (w : World σ) (r' : TranscriptionResult),
      (c.Transcribe sys audioFilePath w).1 = .ok r' →
        ∃ dir st₁, sys.MkdirTemp w.state = (.ok dir, st₁) ∧
          timesCopied sys audioFilePath dir
            (sys.Run sys.Background c.config.Timeout
              (c.buildWhisperArgs audioFilePath ++ ["--output_dir", dir]) st₁).2
            r'.Segments) := by
  have key : ∀ (ctx : κ) (w : World σ) (r' : TranscriptionResult),
      (c.TranscribeWithContext sys ctx audioFilePath w).1 = .ok r' →
        ∃ dir st₁, sys.MkdirTemp w.state = (.ok dir, st₁) ∧
          timesCopied sys audioFilePath dir
            (sys.Run ctx c.config.Timeout
              (c.buildWhisperArgs audioFilePath ++ ["--output_dir", dir]) st₁).2
            r'.Segments := by
    intro ctx w r' h
    obtain ⟨dir, st₁, r, hm, hp, hr⟩ := Transcribe_ok_parseResult c sys ctx audioFilePath w r' h
    refine ⟨dir, st₁, hm, ?_⟩
    simp only [WhisperClient.parseResult, Except.ok.injEq] at hp
    rw [hr, ← hp]
    exact parseResult_timesCopied sys audioFilePath dir _
  exact ⟨⟨_, rfl, parseResult_timesCopied sys audioFilePath outputDir st⟩, key,
    fun w r' h => key sys.Background w r' h⟩

theorem parseResult_segments_ordered_witness :
    ∃ r, (WhisperClient.mk DefaultConfig).parseResult (simSys exitZero decodeSim) "a.mp3" "/out"
        filesTwo = .ok r ∧
      (r.Segments.map fun seg => (seg.Start, seg.End)) =
        (resultTwo.Segments.map fun seg => (seg.Start, seg.End)) ∧
      timesOrdered (r.Segments.map fun seg => (seg.Start, seg.End)) = true :=
  match (parseResult_segments_ordered (WhisperClient.mk DefaultConfig)
      (simSys exitZero decodeSim) "a.mp3" "/out" filesTwo).1 with
  | ⟨r, hr, hcopy, _⟩ =>
    ⟨r, hr, (hcopy docTwo resultTwo (by decide) (by decide)).1,
      (hcopy docTwo resultTwo (by decide) (by decide)).2 (by decide)⟩

/-- The not-exist branch: when `Stat` fails with a not-exist error,
`TranscribeWithContext` and `Transcribe` return no result and `ErrInvalidAudioFile`
with that path, and leave the world as it was: no temporary directory is made and
no process is spawned. -/
theorem Transcribe_missing_file {σ κ : Type} (c : WhisperClient) (sys : Sys σ κ) (ctx : κ)
    (audioFilePath : String) (w : World σ)
    (hstat : sys.Stat w.state audioFilePath = .notExist) :
    c.TranscribeWithContext sys ctx audioFilePath w =
        (.error (.ErrInvalidAudioFile audioFilePath "文件不存在"), w) ∧
      c.Transcribe sys audioFilePath w =
        (.error (.ErrInvalidAudioFile audioFilePath "文件不存在"), w) := by
  simp [WhisperClient.Transcribe, WhisperClient.TranscribeWithContext, hstat]

theorem Transcribe_missing_file_witness :
    (WhisperClient.mk DefaultConfig).TranscribeWithContext (simSys exitZero decodeSim) ()
        "a.mp3" ⟨[], []⟩ =
        (.error (.ErrInvalidAudioFile "a.mp3" "文件不存在"), ⟨[], []⟩) ∧
      (WhisperClient.mk DefaultConfig).Transcribe (simSys exitZero decodeSim) "a.mp3" ⟨[], []⟩ =
        (.error (.ErrInvalidAudioFile "a.mp3" "文件不存在"), ⟨[], []⟩) :=
  Transcribe_missing_file (WhisperClient.mk DefaultConfig) (simSys exitZero decodeSim) ()
    "a.mp3" ⟨[], []⟩ (by decide)

/-- C6 (the code at `f.txt/x.mp3`, with `f.txt` a regular file): the input path does
not exist, `Stat` fails with an error that is not a not-exist error, and
`Transcribe` makes the temporary directory, spawns the process and returns
`ErrTranscriptionFailed`, not `ErrInvalidAudioFile`. -/
theorem Transcribe_not_a_directory :
    (simSys exitOne decodeSim).ReadFile [("f.txt", "")] "f.txt/x.mp3" = none ∧
    (simSys exitOne decodeSim).Stat [("f.txt", "")] "f.txt/x.mp3" = .otherError ∧
    (baseClient.Transcribe (simSys exitOne decodeSim) "f.txt/x.mp3"
        ⟨[("f.txt", "")], []⟩).1 =
      .error (.ErrTranscriptionFailed "f.txt/x.mp3"
        (.Errorf "%w: %s" (.system "exit status 1") ["Not a directory"])) ∧
    (baseClient.Transcribe (simSys exitOne decodeSim) "f.txt/x.mp3"
        ⟨[("f.txt", "")], []⟩).2.trace =
      [.MkdirTemp (.ok "/tmp/whisper_output_1"),
        .Spawn (baseClient.buildWhisperArgs "f.txt/x.mp3" ++
          ["--output_dir", "/tmp/whisper_output_1"]),
        .RemoveAll "/tmp/whisper_output_1"] :=
  ⟨rfl, rfl, rfl, rfl⟩

/-- C7: when the input path exists and the child process ends with an error,
`TranscribeWithContext` returns `ErrTimeout` with the string form of the configured
timeout if the deadline was exceeded (`5s` for a timeout of 5 seconds), and
otherwise `ErrTranscriptionFailed` with the input path, wrapping the error of the
process and the captured standard error. -/
theorem Transcribe_run_error {σ κ : Type} (c : WhisperClient) (sys : Sys σ κ) (ctx : κ)
    (audioFilePath : String) (w : World σ) (outputDir : String) (st₁ st₂ : σ)
    (out : RunOutcome) (err : Error)
    (hstat : sys.Stat w.state audioFilePath ≠ .notExist)
    (hdir : sys.MkdirTemp w.state = (.ok outputDir, st₁))
    (hrun : sys.Run ctx c.config.Timeout
      (c.buildWhisperArgs audioFilePath ++ ["--output_dir", outputDir]) st₁ = (out, st₂))
    (herr : out.err = some err) :
    (c.TranscribeWithContext sys ctx audioFilePath w).1 =
        (if out.ctxErr = .DeadlineExceeded then
          .error (.ErrTimeout (Duration.String c.config.Timeout))
        else
          .error (.ErrTranscriptionFailed audioFilePath (.Errorf "%w: %s" err [out.stderr]))) ∧
      (c.config.Timeout = 5 * Second → out.ctxErr = .DeadlineExceeded →
        (c.TranscribeWithContext sys ctx audioFilePath w).1 = .error (.ErrTimeout "5s")) := by
  have h : (c.TranscribeWithContext sys ctx audioFilePath w).1 =
      (if out.ctxErr = .DeadlineExceeded then
        .error (.ErrTimeout (Duration.String c.config.Timeout))
      else
        .error (.ErrTranscriptionFailed audioFilePath (.Errorf "%w: %s" err [out.stderr]))) := by
    unfold WhisperClient.TranscribeWithContext
    cases hs : sys.Stat w.state audioFilePath with
    | notExist => exact absurd hs hstat
    | ok => simp [hdir, hrun, herr]
    | otherError => simp [hdir, hrun, herr]
  refine ⟨h, fun ht hd => ?_⟩
  rw [h, if_pos hd, ht]
  rfl

theorem Transcribe_run_error_witness :
    (baseClient.TranscribeWithContext (simSys killed decodeSim) () "sample.mp3"
      ⟨[("sample.mp3", "")], []⟩).1 = .error (.ErrTimeout "5s") :=
  (Transcribe_run_error baseClient (simSys killed decodeSim) () "sample.mp3"
    ⟨[("sample.mp3", "")], []⟩ "/tmp/whisper_output_1" [("sample.mp3", "")]
    [("sample.mp3", "")] killed (.system "signal: killed") (by decide) rfl rfl rfl).2 rfl rfl

/-- C8: when the input path exists and the child process exits with status zero,
`TranscribeWithContext` returns the result of `parseResult` for that input and
output directory with `Model` set to the model of the configuration. -/
theorem Transcribe_success {σ κ : Type} (c : WhisperClient) (sys : Sys σ κ) (ctx : κ)
    (audioFilePath : String) (w : World σ) (outputDir : String) (st₁ st₂ : σ)
    (out : RunOutcome)
    (hstat : sys.Stat w.state audioFilePath ≠ .notExist)
    (hdir : sys.MkdirTemp w.state = (.ok outputDir, st₁))
    (hrun : sys.Run ctx c.config.Timeout
      (c.buildWhisperArgs audioFilePath ++ ["--output_dir", outputDir]) st₁ = (out, st₂))
    (hok : out.err = none) :
    ∃ r r', c.parseResult sys audioFilePath outputDir st₂ = .ok r ∧
      (c.TranscribeWithContext sys ctx audioFilePath w).1 = .ok r' ∧
      r'.Model = c.config.Model ∧ r'.Text = r.Text ∧ r'.Language = r.Language ∧
      r'.Duration = r.Duration ∧ r'.Segments = r.Segments ∧ r'.FilePath = r.FilePath := by
  refine ⟨parseResultJson sys audioFilePath outputDir st₂
      (parseResultText sys audioFilePath outputDir st₂),
    { parseResultJson sys audioFilePath outputDir st₂
        (parseResultText sys audioFilePath outputDir st₂) with Model := c.config.Model },
    rfl, ?_, rfl, rfl, rfl, rfl, rfl, rfl⟩
  unfold WhisperClient.TranscribeWithContext
  cases hs : sys.Stat w.state audioFilePath with
  | notExist => exact absurd hs hstat
  | ok => simp [hdir, hrun, hok, WhisperClient.parseResult]
  | otherError => simp [hdir, hrun, hok, WhisperClient.parseResult]

theorem Transcribe_success_witness :
    ∃ r r', baseClient.parseResult (simSys exitZero decodeSim) "sample.mp3"
        "/tmp/whisper_output_1"
        [("/tmp/whisper_output_1/sample.txt", "transcript of sample.mp3"), ("sample.mp3", "")]
        = .ok r ∧
      (baseClient.TranscribeWithContext (simSys exitZero decodeSim) () "sample.mp3"
        ⟨[("sample.mp3", "")], []⟩).1 = .ok r' ∧
      r'.Model = baseClient.config.Model ∧ r'.Text = r.Text ∧ r'.Language = r.Language ∧
      r'.Duration = r.Duration ∧ r'.Segments = r.Segments ∧ r'.FilePath = r.FilePath :=
  Transcribe_success baseClient (simSys exitZero decodeSim) () "sample.mp3"
    ⟨[("sample.mp3", "")], []⟩ "/tmp/whisper_output_1" [("sample.mp3", "")]
    [("/tmp/whisper_output_1/sample.txt", "transcript of sample.mp3"), ("sample.mp3", "")]
    exitZero (by decide) rfl rfl rfl

/-- C3: `TranscribeBatch` returns no error, and its results are the results of the
successful calls of `Transcribe` on the inputs in turn, in input order, with no
entry for a failed call; their number is the number of successful calls. -/
theorem TranscribeBatch_results {σ κ : Type} (c : WhisperClient) (sys : Sys σ κ)
    (audioFiles : List String) (w : World σ) :
    ∃ results, (c.TranscribeBatch sys audioFiles w).1 = .ok results ∧
      results = (transcribeEach c sys audioFiles w).1.filterMap Except.toOption ∧
      results.length =
        (transcribeEach c sys audioFiles w).1.countP (fun o => o.toOption.isSome) := by
  refine ⟨_, ?_, rfl, ?_⟩
  · simp [WhisperClient.TranscribeBatch, transcribeLoop_eq]
  · generalize (transcribeEach c sys audioFiles w).1 = os
    induction os with
    | nil => rfl
    | cons o rest ih =>
      cases o with
      | error e => simpa [Except.toOption, List.filterMap_cons, List.countP_cons] using ih
      | ok r => simpa [Except.toOption, List.filterMap_cons, List.countP_cons] using ih

/-! ## Scenarios of the specification -/

/-- The input exists and the tool writes `sample.txt` and exits with status zero:
the result has the text of that file, the model of the configuration and no
segments. -/
theorem scenario_success :
    (baseClient.Transcribe (simSys exitZero decodeSim) "sample.mp3"
      ⟨[("sample.mp3", "")], []⟩).1 =
      .ok { Text := "transcript of sample.mp3", Language := "", Duration := Float64.zero,
            Segments := [], FilePath := "/tmp/whisper_output_1/sample.txt", Model := "base" } :=
  rfl

/-- A batch of three inputs of which the second is missing gives two results, for
the first and the third input, in that order. -/
theorem scenario_batch :
    (baseClient.TranscribeBatch (simSys exitZero decodeSim) ["1.mp3", "2.mp3", "3.mp3"]
      ⟨[("1.mp3", ""), ("3.mp3", "")], []⟩).1 =
      .ok [{ Text := "transcript of 1.mp3", Language := "", Duration := Float64.zero,
             Segments := [], FilePath := "/tmp/whisper_output_1/1.txt", Model := "base" },
           { Text := "transcript of 3.mp3", Language := "", Duration := Float64.zero,
             Segments := [], FilePath := "/tmp/whisper_output_1/3.txt", Model := "base" }] :=
  rfl

/-- The temporary directory is made before the process is spawned and removed
after it, also when the process is killed at the deadline. -/
theorem scenario_cleanup :
    (baseClient.Transcribe (simSys killed decodeSim) "sample.mp3"
      ⟨[("sample.mp3", "")], []⟩).2.trace.length = 3 ∧
    (baseClient.Transcribe (simSys exitZero decodeSim) "sample.mp3"
      ⟨[("sample.mp3", "")], []⟩).2.state = [("sample.mp3", "")] :=
  ⟨rfl, rfl⟩

end Asr
